import Mathlib

/-!
Shallow embedding of the image-editing session core of `src/App.tsx`
(the "Gemini Image Enhancer" single-page app).

The React component `App` keeps six pieces of `useState` state:
`originalImage`, `enhancedImage` (both `string | null`), `isLoading : boolean`,
`error : string | null`, `customPrompt : string`, `activeFilter : string | null`.
We model `string | null` as `Option String` and JavaScript truthiness of such a
value (`null` and `""` are falsy) explicitly.

Asynchronous handlers (`handleImageUpload`, `runEnhancement`) are modelled as
pure functions from the pre-state and the outcome of the single external call
(`fileToBase64` / `enhanceImage`) to the post-state, together with the list of
engine calls they dispatched.  The UI-level dispatch (`stepUI`) additionally
reflects the gating that the rendered JSX performs: controls carry
`disabled={isLoading}` (and the uploader is only rendered while no original
image is present), so certain events cannot be delivered in certain states.
-/

namespace ImageEnhance

/-- JavaScript `string | null`. -/
abbrev JSStr := Option String

/-- JavaScript truthiness of a `string | null` value: `null` and `""` are falsy. -/
def truthy : JSStr → Bool
  | none => false
  | some s => s ≠ ""

/-- A preset filter, from `types.ts` / the `FILTERS` array of `App.tsx`
(the icon component is presentation-only and omitted). -/
structure Filter where
  id : String
  name : String
  prompt : String
  deriving Repr, DecidableEq

/-- The `FILTERS` catalog of `App.tsx` lines 8–14 (icons omitted). -/
def FILTERS : List Filter :=
  [ ⟨"enhance", "Auto Enhance", "Professionally enhance this image with balanced brightness, contrast, and color saturation. Make it look crisp and clear."⟩,
    ⟨"sharpen", "Sharpen", "Increase the sharpness and clarity of this image. Bring out the fine details without creating artifacts."⟩,
    ⟨"color_pop", "Color Pop", "Make the colors in this image more vibrant and saturated. Enhance the overall color pop, especially in the main subject."⟩,
    ⟨"vintage", "Vintage", "Apply a vintage film look to this image. Add a slight grain, desaturate the colors a bit, and give it a warm, nostalgic feel."⟩,
    ⟨"grayscale", "Grayscale", "Convert this image to a high-contrast black and white."⟩ ]

/-- The six `useState` slots of the `App` component (lines 142–147). -/
structure SessionState where
  originalImage : JSStr
  enhancedImage : JSStr
  isLoading : Bool
  error : JSStr
  customPrompt : String
  activeFilter : JSStr
  deriving Repr, DecidableEq

/-- The initial state of the component: all slots at their `useState` initial
values (`null`, `null`, `false`, `null`, `""`, `null`). -/
def initialState : SessionState :=
  { originalImage := none, enhancedImage := none, isLoading := false,
    error := none, customPrompt := "", activeFilter := none }

/-- One dispatched call to the transformation engine client
(`enhanceImage(sourceImage, prompt)` in `runEnhancement`). -/
structure EngineCall where
  sourceImage : String
  prompt : String
  deriving Repr, DecidableEq

/-- `handleImageUpload` (App.tsx lines 149–163), as a function of the pre-state
and the outcome of `fileToBase64` (`Except.ok base64` / `Except.error ()` for a
thrown exception).  The handler first sets `isLoading = true` and clears
`error`, `originalImage`, `enhancedImage`; then on success stores the new
base64 string in `originalImage`, on failure stores a fixed error message; and
finally clears `isLoading`. -/
def handleImageUpload (s : SessionState) (result : Except Unit String) : SessionState :=
  let s1 := { s with isLoading := true, error := none,
                     originalImage := none, enhancedImage := none }
  let s2 := match result with
    | .ok base64 => { s1 with originalImage := some base64 }
    | .error _ => { s1 with error := some "Failed to load image. Please try again." }
  { s2 with isLoading := false }

/-- `const sourceImage = enhancedImage || originalImage` (App.tsx line 166):
JavaScript `||` yields the first operand when it is truthy, else the second. -/
def sourceImageOf (s : SessionState) : JSStr :=
  if truthy s.enhancedImage then s.enhancedImage else s.originalImage

/-- `runEnhancement` (App.tsx lines 165–182), as a function of the pre-state,
the prompt, and the outcome of the single `enhanceImage` call.  Returns the
post-state and the list of engine calls dispatched.  `if (!sourceImage)
return;` aborts when the selected source is `null` or `""` (falsy); otherwise
the handler sets `isLoading = true`, clears `error`, calls the engine, stores
the result in `enhancedImage` on success or `"Enhancement failed: " ++ msg` in
`error` on failure, and finally clears `isLoading`.  Note the function itself
performs no check of `isLoading`. -/
def runEnhancement (s : SessionState) (prompt : String) (result : Except String String) :
    SessionState × List EngineCall :=
  match sourceImageOf s with
  | none => (s, [])
  | some src =>
    if src = "" then (s, [])
    else
      let s1 := { s with isLoading := true, error := none }
      let s2 := match result with
        | .ok r => { s1 with enhancedImage := some r }
        | .error msg => { s1 with error := some ("Enhancement failed: " ++ msg) }
      ({ s2 with isLoading := false }, [⟨src, prompt⟩])

/-- `handleFilterClick` (App.tsx lines 184–188): sets `activeFilter` to the
clicked filter's id, clears the custom prompt, then runs the enhancement with
the filter's prompt. -/
def handleFilterClick (s : SessionState) (f : Filter) (result : Except String String) :
    SessionState × List EngineCall :=
  let s1 := { s with activeFilter := some f.id, customPrompt := "" }
  runEnhancement s1 f.prompt result

/-- JavaScript `String.prototype.trim`: strip leading and trailing whitespace.
Modelled over the character list (Lean's own `String.trim` is extensionally
the same on the whitespace characters both share, but is compiled by
well-founded recursion and does not evaluate in the kernel). -/
def jsTrim (s : String) : String :=
  ⟨((s.data.dropWhile Char.isWhitespace).reverse.dropWhile Char.isWhitespace).reverse⟩

/-- `handleCustomEnhance` (App.tsx lines 190–196): if the custom prompt is
truthy after `trim()`, clears `activeFilter` and runs the enhancement with the
(untrimmed) custom prompt; otherwise does nothing. -/
def handleCustomEnhance (s : SessionState) (result : Except String String) :
    SessionState × List EngineCall :=
  if jsTrim s.customPrompt ≠ "" then
    let s1 := { s with activeFilter := none }
    runEnhancement s1 s1.customPrompt result
  else (s, [])

/-- `handleReset` (App.tsx lines 208–214): clears `originalImage`,
`enhancedImage`, `error`, `customPrompt`, `activeFilter`.  (`isLoading` is not
touched.) -/
def handleReset (s : SessionState) : SessionState :=
  { s with originalImage := none, enhancedImage := none, error := none,
           customPrompt := "", activeFilter := none }

/-- `handleRevert` (App.tsx lines 216–221): clears `enhancedImage`, `error`,
`activeFilter`, `customPrompt`.  (`originalImage` and `isLoading` are not
touched.) -/
def handleRevert (s : SessionState) : SessionState :=
  { s with enhancedImage := none, error := none, activeFilter := none,
           customPrompt := "" }

/-- The user events the rendered page can deliver to the session handlers.
Events whose handler awaits an external call carry that call's outcome. -/
inductive UIEvent where
  /-- a file dropped on the uploader label (`handleDrop` → `handleImageUpload`) -/
  | uploadDropped (result : Except Unit String)
  /-- a file chosen through the file input (`handleFileChange` → `handleImageUpload`) -/
  | uploadPicked (result : Except Unit String)
  /-- a one-click filter button pressed (`handleFilterClick`) -/
  | presetClicked (f : Filter) (result : Except String String)
  /-- the custom-enhancement form submitted (`handleCustomEnhance`) -/
  | customSubmitted (result : Except String String)
  /-- the custom prompt text edited (`setCustomPrompt` via `onChange`) -/
  | promptChanged (text : String)
  /-- the "Revert All" button pressed (`handleRevert`) -/
  | revertClicked
  /-- the "Start Over" button pressed (`handleReset`) -/
  | resetClicked
  deriving Repr

/-- Event dispatch as the rendered JSX permits it (App.tsx lines 223–306).
The uploader is rendered only when `!originalImage` (line 238) and its file
input is `disabled={isLoading}` (line 57; the drag-and-drop label carries no
such guard).  The control panel is rendered only when `originalImage` is
truthy (line 240); the filter buttons, the prompt input and the reset button
are `disabled={isLoading}` (lines 255, 276, 289); the revert button is
`disabled={!enhancedImage || isLoading}` (line 293); the custom form's submit
button is `disabled={isLoading || !customPrompt.trim()}` — we model only its
`isLoading` part and let `handleCustomEnhance` re-check the prompt, which is a
superset of the browser's behaviour.  A blocked event leaves the state
unchanged and dispatches nothing. -/
def stepUI (s : SessionState) (e : UIEvent) : SessionState × List EngineCall :=
  match e with
  | .uploadDropped r =>
      if !truthy s.originalImage then (handleImageUpload s r, []) else (s, [])
  | .uploadPicked r =>
      if !truthy s.originalImage && !s.isLoading then (handleImageUpload s r, []) else (s, [])
  | .presetClicked f r =>
      if truthy s.originalImage && !s.isLoading then handleFilterClick s f r else (s, [])
  | .customSubmitted r =>
      if truthy s.originalImage && !s.isLoading then handleCustomEnhance s r else (s, [])
  | .promptChanged t =>
      if truthy s.originalImage && !s.isLoading then ({ s with customPrompt := t }, []) else (s, [])
  | .revertClicked =>
      if truthy s.originalImage && truthy s.enhancedImage && !s.isLoading then
        (handleRevert s, []) else (s, [])
  | .resetClicked =>
      if truthy s.originalImage && !s.isLoading then (handleReset s, []) else (s, [])

/-- States of the component reachable from the initial render by UI events. -/
inductive Reachable : SessionState → Prop where
  | init : Reachable initialState
  | step {s : SessionState} (e : UIEvent) : Reachable s → Reachable (stepUI s e).1

/-- Folding a list of successful transformations (each a prompt together with
the image the engine returned for it) over a state, as chained
`runEnhancement` calls. -/
def applyOks (s : SessionState) (steps : List (String × String)) : SessionState :=
  steps.foldl (fun st pr => (runEnhancement st pr.1 (Except.ok pr.2)).1) s

/-- The image the "After" pane effectively displays, which is also the source
a next transformation would use: `enhancedImage` when truthy, else
`originalImage` (this is exactly `sourceImageOf`). -/
def effectiveImage (s : SessionState) : JSStr := sourceImageOf s

/-- One tick of the `ProgressBar` interval callback (App.tsx lines 70–77):
when `prev >= 95` the interval is cleared and the value is clamped to 95,
otherwise `prev + (100 - prev) * 0.1`.  JavaScript numbers are modelled as
exact rationals. -/
def tick (p : ℚ) : ℚ := if 95 ≤ p then 95 else p + (100 - p) * (1 / 10)

/-- The progress value after `n` ticks of an uninterrupted Pending interval;
the effect body runs `setProgress(0)` on entering Pending (line 68). -/
def progressAt : ℕ → ℚ
  | 0 => 0
  | n + 1 => tick (progressAt n)

/-- The displayed progress value: the ticked value while loading; on leaving
the loading state the effect sets it to 100 (line 81). -/
def progressValue (loading : Bool) (ticks : ℕ) : ℚ :=
  if loading then progressAt ticks else 100

/-! ### Supporting lemmas -/

theorem runEnhancement_originalImage (s : SessionState) (p : String)
    (r : Except String String) :
    (runEnhancement s p r).1.originalImage = s.originalImage := by
  unfold runEnhancement
  cases hsrc : sourceImageOf s with
  | none => rfl
  | some src =>
      by_cases h : src = "" <;> cases r <;> simp [h]

theorem handleFilterClick_originalImage (s : SessionState) (f : Filter)
    (r : Except String String) :
    (handleFilterClick s f r).1.originalImage = s.originalImage := by
  unfold handleFilterClick
  rw [runEnhancement_originalImage]

theorem handleCustomEnhance_originalImage (s : SessionState)
    (r : Except String String) :
    (handleCustomEnhance s r).1.originalImage = s.originalImage := by
  unfold handleCustomEnhance
  by_cases h : jsTrim s.customPrompt ≠ "" <;> simp [h, runEnhancement_originalImage]

theorem handleImageUpload_activeFilter (s : SessionState) (r : Except Unit String) :
    (handleImageUpload s r).activeFilter = s.activeFilter := by
  cases r <;> rfl

theorem handleImageUpload_enhancedImage (s : SessionState) (r : Except Unit String) :
    (handleImageUpload s r).enhancedImage = none := by
  cases r <;> rfl

/-- On every UI-reachable state in which no original image is present (i.e.
the uploader is the rendered control), no preset selection is active and no
enhanced image is held.  Consequently every upload the UI can actually deliver
starts from a state whose `activeFilter` and `enhancedImage` are already
clear. -/
theorem reachable_uploader_state {s : SessionState} (h : Reachable s) :
    truthy s.originalImage = false → s.activeFilter = none ∧ s.enhancedImage = none := by
  induction h with
  | init => intro _; exact ⟨rfl, rfl⟩
  | @step s e _ ih =>
      cases e with
      | uploadDropped r =>
          by_cases hg : truthy s.originalImage
          · simp [stepUI, hg]
          · simp only [stepUI, hg, Bool.not_false, if_true]
            intro _
            rw [handleImageUpload_activeFilter, handleImageUpload_enhancedImage]
            exact ⟨(ih (by simp [hg])).1, rfl⟩
      | uploadPicked r =>
          by_cases hg : (!truthy s.originalImage && !s.isLoading) = true
          · simp only [stepUI, hg, if_true]
            intro _
            rw [handleImageUpload_activeFilter, handleImageUpload_enhancedImage]
            have ho : truthy s.originalImage = false := by
              rcases Bool.and_eq_true .. |>.mp hg with ⟨h1, _⟩
              simpa using h1
            exact ⟨(ih ho).1, rfl⟩
          · simp [stepUI, hg]; exact fun ho => ih ho
      | presetClicked f r =>
          by_cases hg : (truthy s.originalImage && !s.isLoading) = true
          · simp only [stepUI, hg, if_true]
            intro hpost
            rw [handleFilterClick_originalImage] at hpost
            rcases Bool.and_eq_true .. |>.mp hg with ⟨h1, _⟩
            rw [hpost] at h1; cases h1
          · simp [stepUI, hg]; exact fun ho => ih ho
      | customSubmitted r =>
          by_cases hg : (truthy s.originalImage && !s.isLoading) = true
          · simp only [stepUI, hg, if_true]
            intro hpost
            rw [handleCustomEnhance_originalImage] at hpost
            rcases Bool.and_eq_true .. |>.mp hg with ⟨h1, _⟩
            rw [hpost] at h1; cases h1
          · simp [stepUI, hg]; exact fun ho => ih ho
      | promptChanged t =>
          by_cases hg : (truthy s.originalImage && !s.isLoading) = true
          · simp only [stepUI, hg, if_true]
            intro hpost
            rcases Bool.and_eq_true .. |>.mp hg with ⟨h1, _⟩
            rw [hpost] at h1; cases h1
          · simp [stepUI, hg]; exact fun ho => ih ho
      | revertClicked =>
          by_cases hg : (truthy s.originalImage && truthy s.enhancedImage && !s.isLoading) = true
          · simp [stepUI, hg, handleRevert]
          · simp [stepUI, hg]; exact fun ho => ih ho
      | resetClicked =>
          by_cases hg : (truthy s.originalImage && !s.isLoading) = true
          · simp [stepUI, hg, handleReset]
          · simp [stepUI, hg]; exact fun ho => ih ho

/-- A sample state mid-transformation: a request is in flight
(`isLoading = true`), an original and an enhanced image are present. -/
def pendingState : SessionState :=
  { originalImage := some "A", enhancedImage := some "B", isLoading := true,
    error := some "old", customPrompt := "p", activeFilter := some "sharpen" }

/-- A sample idle state with an original image and one successful enhancement. -/
def stateAB : SessionState :=
  { originalImage := some "A", enhancedImage := some "B", isLoading := false,
    error := none, customPrompt := "", activeFilter := none }

/-- A sample idle state with only an original image. -/
def stateA : SessionState :=
  { originalImage := some "A", enhancedImage := none, isLoading := false,
    error := none, customPrompt := "", activeFilter := none }

/-- C1: while a transformation is in flight (`status == Pending`, i.e.
`isLoading = true`), no preset-click or custom-submit event can be delivered —
the transformation controls are rendered `disabled={isLoading}` — so the
session state (in particular `current` and `lastError`) is unchanged and no
second engine call is dispatched.  (The gate lives in the rendered entry
points; `runEnhancement` itself performs no status check.) -/
theorem pending_rejects_transformations (s : SessionState) (h : s.isLoading = true)
    (f : Filter) (r r2 : Except String String) :
    stepUI s (.presetClicked f r) = (s, []) ∧
    stepUI s (.customSubmitted r2) = (s, []) := by
  constructor <;> simp [stepUI, h]

/-- Witness for C1 at a concrete pending state. -/
theorem pending_rejects_transformations_witness :
    stepUI pendingState (.presetClicked ⟨"grayscale", "Grayscale", "gs"⟩ (Except.ok "X")) =
      (pendingState, []) ∧
    stepUI pendingState (.customSubmitted (Except.error "boom")) = (pendingState, []) :=
  pending_rejects_transformations pendingState rfl
    ⟨"grayscale", "Grayscale", "gs"⟩ (Except.ok "X") (Except.error "boom")

/-- C4: when the engine call of a transformation attempt fails, `current`
(`enhancedImage`) and `original` are left exactly as they were, `lastError` is
set to a non-empty description, and `status` returns to Idle
(`isLoading = false`). -/
theorem failed_transformation_state (s : SessionState) (prompt msg : String)
    (h : truthy (sourceImageOf s) = true) :
    (runEnhancement s prompt (Except.error msg)).1.enhancedImage = s.enhancedImage ∧
    (runEnhancement s prompt (Except.error msg)).1.originalImage = s.originalImage ∧
    (runEnhancement s prompt (Except.error msg)).1.error =
      some ("Enhancement failed: " ++ msg) ∧
    "Enhancement failed: " ++ msg ≠ "" ∧
    (runEnhancement s prompt (Except.error msg)).1.isLoading = false := by
  have hne : "Enhancement failed: " ++ msg ≠ "" := by
    intro hc
    have h2 := congrArg String.length hc
    rw [String.length_append] at h2
    have h3 : "Enhancement failed: ".length = 20 := rfl
    have h4 : "".length = 0 := rfl
    omega
  cases hsrc : sourceImageOf s with
  | none => rw [hsrc] at h; simp [truthy] at h
  | some src =>
      rw [hsrc] at h
      have hs : src ≠ "" := by simpa [truthy] using h
      refine ⟨?_, ?_, ?_, hne, ?_⟩ <;> simp [runEnhancement, hsrc, hs]

/-- Witness for C4 at a concrete state with a prior enhanced image. -/
theorem failed_transformation_state_witness :
    (runEnhancement stateAB "p" (Except.error "quota")).1.enhancedImage =
      stateAB.enhancedImage ∧
    (runEnhancement stateAB "p" (Except.error "quota")).1.originalImage =
      stateAB.originalImage ∧
    (runEnhancement stateAB "p" (Except.error "quota")).1.error =
      some ("Enhancement failed: " ++ "quota") ∧
    "Enhancement failed: " ++ "quota" ≠ "" ∧
    (runEnhancement stateAB "p" (Except.error "quota")).1.isLoading = false :=
  failed_transformation_state stateAB "p" "quota" (by decide)

/-- C5: the source image handed to the engine is `enhancedImage` when it is
present (truthy), else `originalImage`; when neither is present the request is
rejected with no engine call and no state change. -/
theorem transformation_source_selection (s : SessionState) (prompt : String)
    (r : Except String String) :
    (∀ img, s.enhancedImage = some img → img ≠ "" →
        (runEnhancement s prompt r).2 = [⟨img, prompt⟩]) ∧
    (truthy s.enhancedImage = false → ∀ img, s.originalImage = some img → img ≠ "" →
        (runEnhancement s prompt r).2 = [⟨img, prompt⟩]) ∧
    (truthy s.enhancedImage = false → truthy s.originalImage = false →
        runEnhancement s prompt r = (s, [])) := by
  refine ⟨?_, ?_, ?_⟩
  · intro img he hne
    have hsrc : sourceImageOf s = some img := by
      simp [sourceImageOf, he, truthy, hne]
    cases r <;> simp [runEnhancement, hsrc, hne]
  · intro he img ho hne
    have hsrc : sourceImageOf s = some img := by
      simp [sourceImageOf, he, ho]
    cases r <;> simp [runEnhancement, hsrc, hne]
  · intro he ho
    have hsrc : sourceImageOf s = s.originalImage := by simp [sourceImageOf, he]
    cases hoi : s.originalImage with
    | none => simp [runEnhancement, hsrc, hoi]
    | some v =>
        have hv : v = "" := by
          rw [hoi] at ho; simpa [truthy] using ho
        simp [runEnhancement, hsrc, hoi, hv]

/-- Witness for C5: the three source-selection cases at concrete states. -/
theorem transformation_source_selection_witness :
    (runEnhancement stateAB "p" (Except.ok "C")).2 = [⟨"B", "p"⟩] ∧
    (runEnhancement stateA "p" (Except.ok "C")).2 = [⟨"A", "p"⟩] ∧
    runEnhancement initialState "p" (Except.ok "C") = (initialState, []) :=
  ⟨(transformation_source_selection stateAB "p" (Except.ok "C")).1 "B" rfl (by decide),
   (transformation_source_selection stateA "p" (Except.ok "C")).2.1 (by decide) "A" rfl
     (by decide),
   (transformation_source_selection initialState "p" (Except.ok "C")).2.2 (by decide)
     (by decide)⟩

theorem applyOks_originalImage (s : SessionState) (steps : List (String × String)) :
    (applyOks s steps).originalImage = s.originalImage := by
  induction steps generalizing s with
  | nil => rfl
  | cons a rest ih =>
      show (applyOks (runEnhancement s a.1 (Except.ok a.2)).1 rest).originalImage = _
      rw [ih, runEnhancement_originalImage]

/-- C6: after any sequence of successful transformations, `handleRevert` sets
`current`, `lastError` and `activeSelection` to absent (also clearing the
draft prompt), leaves `original` exactly as loaded — so the effective
displayed image is the original bytes, never an intermediate result — and the
revert event dispatches no engine call. -/
theorem revert_restores_original (s : SessionState) (steps : List (String × String)) :
    handleRevert (applyOks s steps) =
      { applyOks s steps with enhancedImage := none, error := none,
                              activeFilter := none, customPrompt := "" } ∧
    (handleRevert (applyOks s steps)).originalImage = s.originalImage ∧
    effectiveImage (handleRevert (applyOks s steps)) = s.originalImage ∧
    (stepUI (applyOks s steps) .revertClicked).2 = [] := by
  refine ⟨rfl, ?_, ?_, ?_⟩
  · show (applyOks s steps).originalImage = s.originalImage
    exact applyOks_originalImage s steps
  · show sourceImageOf (handleRevert (applyOks s steps)) = s.originalImage
    rw [show sourceImageOf (handleRevert (applyOks s steps)) =
          (applyOks s steps).originalImage from rfl]
    exact applyOks_originalImage s steps
  · simp only [stepUI]
    split <;> rfl

/-- C9: `handleReset` clears `original`, `current`, `lastError` and
`activeSelection`; it is idempotent; and from any non-loading state it yields
exactly the empty initial state. -/
theorem reset_yields_empty (s : SessionState) :
    (handleReset s).originalImage = none ∧
    (handleReset s).enhancedImage = none ∧
    (handleReset s).error = none ∧
    (handleReset s).activeFilter = none ∧
    handleReset (handleReset s) = handleReset s ∧
    (s.isLoading = false → handleReset s = initialState) := by
  refine ⟨rfl, rfl, rfl, rfl, rfl, fun h => ?_⟩
  cases s
  simp only [handleReset, initialState] at *
  simp [h]

/-- Witness for C9: resetting a populated idle state yields the empty state. -/
theorem reset_yields_empty_witness :
    handleReset stateAB = initialState :=
  (reset_yields_empty stateAB).2.2.2.2.2 rfl

/-- C10: both `handleRevert` and `handleReset` clear the draft custom prompt
in addition to the fields the spec lists, and modify no other field: revert
leaves `originalImage` and `isLoading` unchanged, reset leaves `isLoading`
unchanged. -/
theorem revert_reset_frame (s : SessionState) :
    (handleRevert s).customPrompt = "" ∧
    (handleReset s).customPrompt = "" ∧
    (handleRevert s).originalImage = s.originalImage ∧
    (handleRevert s).isLoading = s.isLoading ∧
    (handleRevert s).enhancedImage = none ∧
    (handleRevert s).error = none ∧
    (handleRevert s).activeFilter = none ∧
    (handleReset s).isLoading = s.isLoading ∧
    (handleReset s).originalImage = none ∧
    (handleReset s).enhancedImage = none ∧
    (handleReset s).error = none ∧
    (handleReset s).activeFilter = none :=
  ⟨rfl, rfl, rfl, rfl, rfl, rfl, rfl, rfl, rfl, rfl, rfl, rfl⟩

/-- C2 counterexample: from a prior state holding original image "A" and
enhanced image "B", a failed upload does NOT leave `original`/`current` at
their prior values — the handler clears both before attempting the decode —
so the claim as stated is false. -/
theorem failed_upload_not_preserving_cex :
    (handleImageUpload stateAB (Except.error ())).originalImage ≠ stateAB.originalImage ∧
    (handleImageUpload stateAB (Except.error ())).enhancedImage ≠ stateAB.enhancedImage ∧
    (handleImageUpload stateAB (Except.error ())).error =
      some "Failed to load image. Please try again." := by
  refine ⟨?_, ?_, rfl⟩ <;> decide

/-- C2 amended: a failed upload sets `lastError` to a fixed message and leaves
`original` and `current` absent (cleared at the start of the attempt); on the
states from which the UI can actually deliver an upload — reachable states
with no original image present — the prior `original`/`current` were already
absent, so the session is observably unchanged apart from the error slot (and
the loading flag returning to idle). -/
theorem failed_upload_amended (s : SessionState) (u : Unit) :
    (handleImageUpload s (Except.error u)).originalImage = none ∧
    (handleImageUpload s (Except.error u)).enhancedImage = none ∧
    (handleImageUpload s (Except.error u)).error =
      some "Failed to load image. Please try again." ∧
    (s.originalImage = none → s.enhancedImage = none →
      handleImageUpload s (Except.error u) =
        { s with error := some "Failed to load image. Please try again.",
                 isLoading := false }) := by
  refine ⟨rfl, rfl, rfl, fun h1 h2 => ?_⟩
  cases s
  simp only at h1 h2
  simp [handleImageUpload, h1, h2]

/-- Witness for C2 amended at the empty initial state. -/
theorem failed_upload_amended_witness :
    handleImageUpload initialState (Except.error ()) =
      { initialState with error := some "Failed to load image. Please try again.",
                          isLoading := false } :=
  (failed_upload_amended initialState ()).2.2.2 rfl rfl

/-- A prior state with an active preset selection but no images, as left by a
direct invocation sequence outside the rendered UI. -/
def priorFiltered : SessionState :=
  { originalImage := none, enhancedImage := none, isLoading := false,
    error := none, customPrompt := "", activeFilter := some "vintage" }

/-- C3 counterexample: `handleImageUpload` never touches `activeFilter`, so a
successful upload from a state with `activeFilter = some "vintage"` does not
clear `activeSelection`, contradicting the claim's "unconditionally clears
current, lastError, and activeSelection". -/
theorem upload_keeps_activeFilter_cex :
    (handleImageUpload priorFiltered (Except.ok "N")).activeFilter = some "vintage" ∧
    (handleImageUpload priorFiltered (Except.ok "N")).activeFilter ≠ none := by
  refine ⟨rfl, ?_⟩; decide

/-- C3 amended: a successful upload replaces `original`, clears `current` and
`lastError`, but leaves `activeSelection` (`activeFilter`) unchanged; since on
every UI-reachable state with the uploader rendered (no truthy original image)
`activeFilter` is already absent, the post-state of every upload the UI can
deliver nevertheless has `activeSelection` absent. -/
theorem successful_upload_amended :
    (∀ (s : SessionState) (img : String),
      (handleImageUpload s (Except.ok img)).originalImage = some img ∧
      (handleImageUpload s (Except.ok img)).enhancedImage = none ∧
      (handleImageUpload s (Except.ok img)).error = none ∧
      (handleImageUpload s (Except.ok img)).activeFilter = s.activeFilter ∧
      (s.activeFilter = none →
        handleImageUpload s (Except.ok img) =
          { s with originalImage := some img, enhancedImage := none,
                   error := none, isLoading := false })) ∧
    (∀ s : SessionState, Reachable s → truthy s.originalImage = false →
      ∀ img, (handleImageUpload s (Except.ok img)).activeFilter = none) := by
  constructor
  · intro s img
    refine ⟨rfl, rfl, rfl, rfl, fun h => ?_⟩
    cases s
    simp only at h
    simp [handleImageUpload, h]
  · intro s hr ho img
    rw [handleImageUpload_activeFilter]
    exact (reachable_uploader_state hr ho).1

/-- Witness for C3 amended at the (reachable) initial state. -/
theorem successful_upload_amended_witness :
    handleImageUpload initialState (Except.ok "N") =
      { initialState with originalImage := some "N", enhancedImage := none,
                          error := none, isLoading := false } ∧
    (handleImageUpload initialState (Except.ok "N")).activeFilter = none :=
  ⟨(successful_upload_amended.1 initialState "N").2.2.2.2 rfl,
   successful_upload_amended.2 initialState Reachable.init rfl "N"⟩

/-- A state with no images but a non-empty draft prompt. -/
def noImagePrompt : SessionState :=
  { originalImage := none, enhancedImage := none, isLoading := false,
    error := none, customPrompt := "hello", activeFilter := none }

/-- C7 counterexample: a preset click with no source image present is NOT a
full no-op — although no engine call is dispatched and `status`, `original`,
`current`, `lastError` are unchanged, the handler first sets `activeFilter`
to the clicked preset and clears the draft prompt, so the session state does
change. -/
theorem preset_without_source_not_noop_cex :
    (handleFilterClick noImagePrompt ⟨"vintage", "Vintage", "vp"⟩ (Except.ok "X")).1 ≠
      noImagePrompt ∧
    (handleFilterClick noImagePrompt ⟨"vintage", "Vintage", "vp"⟩ (Except.ok "X")).2 = [] ∧
    (handleFilterClick noImagePrompt ⟨"vintage", "Vintage", "vp"⟩
        (Except.ok "X")).1.activeFilter = some "vintage" ∧
    (handleFilterClick noImagePrompt ⟨"vintage", "Vintage", "vp"⟩
        (Except.ok "X")).1.customPrompt = "" := by
  refine ⟨?_, rfl, rfl, rfl⟩; decide

/-- C7 amended: a custom submission whose text trims to empty is a full no-op
with no engine call; a preset click with no source image (neither
`enhancedImage` nor `originalImage` truthy) dispatches no engine call and
leaves `original`, `current`, `lastError` and `status` unchanged, but does set
`activeFilter` to the clicked preset and clear the draft prompt. -/
theorem invalid_request_amended :
    (∀ (s : SessionState) (r : Except String String), jsTrim s.customPrompt = "" →
        handleCustomEnhance s r = (s, [])) ∧
    (∀ (s : SessionState) (f : Filter) (r : Except String String),
        truthy s.enhancedImage = false → truthy s.originalImage = false →
        handleFilterClick s f r =
          ({ s with activeFilter := some f.id, customPrompt := "" }, [])) := by
  constructor
  · intro s r h
    simp [handleCustomEnhance, h]
  · intro s f r he ho
    unfold handleFilterClick
    cases hoi : s.originalImage with
    | none => simp [runEnhancement, sourceImageOf, he]
    | some v =>
        have hv : v = "" := by rw [hoi] at ho; simpa [truthy] using ho
        subst hv
        simp [runEnhancement, sourceImageOf, he]

/-- Witness for C7 amended: a whitespace-only submission and a sourceless
preset click at concrete states. -/
theorem invalid_request_amended_witness :
    handleCustomEnhance { initialState with customPrompt := "   " } (Except.ok "X") =
      ({ initialState with customPrompt := "   " }, []) ∧
    handleFilterClick noImagePrompt ⟨"vintage", "Vintage", "vp"⟩ (Except.ok "X") =
      ({ noImagePrompt with activeFilter := some "vintage", customPrompt := "" }, []) :=
  ⟨invalid_request_amended.1 { initialState with customPrompt := "   " }
      (Except.ok "X") (by decide),
   invalid_request_amended.2 noImagePrompt ⟨"vintage", "Vintage", "vp"⟩
      (Except.ok "X") (by decide) (by decide)⟩

theorem progressAt_lt_100 (n : ℕ) : progressAt n < 100 := by
  induction n with
  | zero => norm_num [progressAt]
  | succ k ih =>
      show tick (progressAt k) < 100
      rw [tick]
      split
      · norm_num
      · linarith

/-- C8 counterexample: the exponential update targets 100, not 95, so the
value does not approach 95 from below — starting from 0 it exceeds 95 on the
29th tick (reaching 95.2898…), and only the next tick clamps it to exactly
95.  This refutes "moves toward but never reaches the ceiling of 95". -/
theorem progress_exceeds_ceiling_cex :
    95 < progressAt 29 ∧ progressAt 30 = 95 := by
  norm_num [progressAt, tick]

/-- C8 amended: the value is 0 on entering Pending; on each tick while below
95 it is updated by `value += (100 - value) * 0.1` and is strictly
increasing; it stays below 100 throughout; once it reaches or exceeds 95 —
which happens, overshooting to just above 95 on one tick — the next update
clamps it to exactly 95 and it is frozen there; on leaving Pending the value
is set to exactly 100. -/
theorem progress_estimator_amended :
    progressAt 0 = 0 ∧
    (∀ n : ℕ, progressAt n < 95 →
        progressAt (n + 1) = progressAt n + (100 - progressAt n) * (1 / 10)) ∧
    (∀ n : ℕ, progressAt n < 95 → progressAt n < progressAt (n + 1)) ∧
    (∀ n : ℕ, progressAt n < 100) ∧
    (∀ n : ℕ, 95 ≤ progressAt n → progressAt (n + 1) = 95) ∧
    (∀ n : ℕ, progressValue false n = 100) ∧
    (∀ n : ℕ, progressValue true n = progressAt n) := by
  refine ⟨rfl, ?_, ?_, progressAt_lt_100, ?_, fun n => rfl, fun n => rfl⟩
  · intro n h
    show tick (progressAt n) = _
    rw [tick, if_neg (not_le.mpr h)]
  · intro n h
    show progressAt n < tick (progressAt n)
    rw [tick, if_neg (not_le.mpr h)]
    linarith
  · intro n h
    show tick (progressAt n) = 95
    rw [tick, if_pos h]

/-- Witness for C8 amended at concrete tick counts. -/
theorem progress_estimator_amended_witness :
    progressAt 1 = progressAt 0 + (100 - progressAt 0) * (1 / 10) ∧
    progressAt 0 < progressAt 1 ∧
    progressAt 5 < 100 ∧
    progressAt 31 = 95 ∧
    progressValue false 7 = 100 :=
  ⟨progress_estimator_amended.2.1 0 (by norm_num [progressAt]),
   progress_estimator_amended.2.2.1 0 (by norm_num [progressAt]),
   progress_estimator_amended.2.2.2.1 5,
   progress_estimator_amended.2.2.2.2.1 30 (by norm_num [progressAt, tick]),
   progress_estimator_amended.2.2.2.2.2.1 7⟩

end ImageEnhance
